import Mathlib

/-!
Verification of the Minesweeper grid engine (`src/game.rs`).

The game-relevant parts of the source are embedded shallowly:

* `CellContents`, `CellState`, `Cell`, `Grid` mirror the Rust data types;
* `Grid.flat` is the `(row, col) -> flat index` mapping of the
  `Index`/`IndexMut` impls (`index.0 * self.size.0 + index.1`, i.e. the
  stride is the ROW count);
* `Grid.get?` models `&self.cells[flat]` (`none` = the vector access
  panics out of bounds);
* `Grid.neighbors` is a literal translation of `Grid::neighbors`,
  including its asymmetric bound checks;
* `Grid.reveal` / `revealLoop` model `Grid::reveal`'s explicit-stack
  flood fill (the `Vec` used as a stack is kept reversed: the list head
  is the `Vec`'s last element, so `pop` is head and `append` prepends
  the reversed neighbour list);
* `place_bombs_rnd` / `placeBombsLoop` / `placeBombsStep` model the
  rejection-sampling bomb placement, with the random source as a stream
  `Nat → Nat` read two values per iteration (`gen_range(0..k)` is the
  stream value `% k`, which realises every sequence of in-range draws);
* `Grid.on_event` models the mouse handling of `View::on_event`
  restricted to the game state machine (coordinates already decoded).

Loops are given explicit fuel; `RunResult` separates normal completion,
a Rust panic (out-of-bounds vector access, empty `gen_range` range), and
fuel exhaustion.
-/

inductive CellContents where
  | Bomb : CellContents
  | Hint : Nat → CellContents
deriving DecidableEq, Repr

/-- `CellContents::default()` is `Hint(0)`. -/
def CellContents.default : CellContents := CellContents.Hint 0

inductive CellState where
  | Hidden : CellState
  | Revealed : CellState
  | Flagged : CellState
deriving DecidableEq, Repr

structure Cell where
  contents : CellContents
  state : CellState
deriving DecidableEq, Repr

/-- `Cell::default()`: `Hint(0)` contents, `Hidden` state. -/
def Cell.default : Cell := ⟨CellContents.default, CellState.Hidden⟩

/-- `Grid { size: (usize, usize), cells: Vec<Cell> }`; `size = (rows, cols)`. -/
structure Grid where
  size : Nat × Nat
  cells : List Cell
deriving DecidableEq, Repr

/-- Outcome of running an embedded operation: normal result, Rust panic
(out-of-bounds indexing or an empty random range), or fuel exhaustion of
the embedding (the source loop has not finished within the given fuel). -/
inductive RunResult (α : Type) where
  | ok : α → RunResult α
  | panicked : RunResult α
  | fuelOut : RunResult α
deriving DecidableEq, Repr

/-- The flat-index mapping of `impl Index for Grid`:
`index.0 * self.size.0 + index.1` — row times ROW count plus column. -/
def Grid.flat (g : Grid) (index : Nat × Nat) : Nat :=
  index.1 * g.size.1 + index.2

/-- Reading `self.cells[flat]`: `none` models the panic when the flat
index falls outside the backing vector. -/
def Grid.get? (g : Grid) (index : Nat × Nat) : Option Cell :=
  g.cells[g.flat index]?

/-- Writing through `IndexMut` at an index whose read has already
succeeded (`List.set` is the identity out of range, but every use in this
file is guarded by a successful `Grid.get?` at the same index). -/
def Grid.set (g : Grid) (index : Nat × Nat) (cell : Cell) : Grid :=
  { g with cells := g.cells.set (g.flat index) cell }

/-- `Grid::new`: `vec![Cell::default(); r * c]`, no validation of the size. -/
def Grid.new (size : Nat × Nat) : Grid :=
  { size := size, cells := List.replicate (size.1 * size.2) Cell.default }

/-- Literal translation of `Grid::neighbors`, bound checks as written in
the source: the guard for `(r-1, c+1)` tests `r < rows - 1` (not
`c < cols - 1`), and the guard for `(r+1, c+1)` tests `c < cols + 1`
(vacuous for in-bounds `c`). -/
def Grid.neighbors (g : Grid) (index : Nat × Nat) : List (Nat × Nat) :=
  let r := index.1
  let c := index.2
  (if r > 0 then
      [(r - 1, c)] ++
      (if c > 0 then [(r - 1, c - 1)] else []) ++
      (if r < g.size.1 - 1 then [(r - 1, c + 1)] else [])
    else []) ++
  (if c > 0 then [(r, c - 1)] else []) ++
  (if c < g.size.2 - 1 then [(r, c + 1)] else []) ++
  (if r < g.size.1 - 1 then
      [(r + 1, c)] ++
      (if c > 0 then [(r + 1, c - 1)] else []) ++
      (if c < g.size.2 + 1 then [(r + 1, c + 1)] else [])
    else [])

/-- The `while let Some(current) = stack.pop()` loop of `Grid::reveal`:
pop a coordinate, index into the grid (panic if out of bounds), and if
its contents is `Hint(0)` mark it `Revealed` and append its neighbours.
The source performs NO check of the popped cell's state. -/
def revealLoop (fuel : Nat) (g : Grid) (stack : List (Nat × Nat)) : RunResult Grid :=
  match fuel with
  | 0 => RunResult.fuelOut
  | fuel + 1 =>
    match stack with
    | [] => RunResult.ok g
    | current :: rest =>
      match g.get? current with
      | none => RunResult.panicked
      | some cell =>
        if cell.contents = CellContents.Hint 0 then
          revealLoop fuel (g.set current { cell with state := CellState.Revealed })
            ((g.neighbors current).reverse ++ rest)
        else
          revealLoop fuel g rest

/-- `Grid::reveal`: set the target `Revealed`; if its contents is
`Hint(0)`, run the flood-fill loop seeded with the target's neighbours. -/
def Grid.reveal (g : Grid) (fuel : Nat) (index : Nat × Nat) : RunResult Grid :=
  match g.get? index with
  | none => RunResult.panicked
  | some cell =>
    let g1 := g.set index { cell with state := CellState.Revealed }
    if cell.contents = CellContents.Hint 0 then
      revealLoop fuel g1 (g1.neighbors index).reverse
    else
      RunResult.ok g1

/-- The `for neighbor in grid.neighbors(index)` loop of `place_bombs_rnd`:
increment the `Hint` count of each neighbour that is not a bomb; `none`
models the panic when a neighbour's flat index is out of bounds. -/
def bumpHints (g : Grid) : List (Nat × Nat) → Option Grid
  | [] => some g
  | n :: ns =>
    match g.get? n with
    | none => none
    | some cell =>
      match cell.contents with
      | CellContents.Hint k =>
          bumpHints (g.set n { cell with contents := CellContents.Hint (k + 1) }) ns
      | CellContents.Bomb => bumpHints g ns

/-- One iteration of the `while bombs_placed < num_bombs` loop: sample a
coordinate (`gen_range(0..r)`, `gen_range(0..c)` — panic on an empty
range), and if the sampled cell is not already a bomb, set it to `Bomb`
and bump its neighbours' hints. `some (g, true)` = a bomb was placed,
`some (g, false)` = collision (resample), `none` = panic. -/
def placeBombsStep (rng : Nat → Nat) (i : Nat) (g : Grid) : Option (Grid × Bool) :=
  let r := g.size.1
  let c := g.size.2
  if r = 0 ∨ c = 0 then none
  else
    let index := (rng i % r, rng (i + 1) % c)
    match g.get? index with
    | none => none
    | some cell =>
      if cell.contents = CellContents.Bomb then some (g, false)
      else
        let g1 := g.set index { cell with contents := CellContents.Bomb }
        match bumpHints g1 (g1.neighbors index) with
        | none => none
        | some g2 => some (g2, true)

/-- The sampling loop of `place_bombs_rnd`; `i` is the position in the
random stream (two draws per iteration). -/
def placeBombsLoop (fuel : Nat) (rng : Nat → Nat) (i : Nat) (g : Grid)
    (numBombs placed : Nat) : RunResult Grid :=
  match fuel with
  | 0 => RunResult.fuelOut
  | fuel + 1 =>
    if placed < numBombs then
      match placeBombsStep rng i g with
      | none => RunResult.panicked
      | some (g1, true) => placeBombsLoop fuel rng (i + 2) g1 numBombs (placed + 1)
      | some (g1, false) => placeBombsLoop fuel rng (i + 2) g1 numBombs placed
    else
      RunResult.ok g

/-- `place_bombs_rnd(rng, grid, num_bombs)`. -/
def place_bombs_rnd (fuel : Nat) (rng : Nat → Nat) (g : Grid) (numBombs : Nat) :
    RunResult Grid :=
  placeBombsLoop fuel rng 0 g numBombs 0

/-- A player input already decoded to a coordinate: left press =
reveal attempt, right press = flag toggle. -/
inductive PlayerOp where
  | leftPress : Nat × Nat → PlayerOp
  | rightPress : Nat × Nat → PlayerOp
deriving DecidableEq, Repr

/-- What `View::on_event` reports back: the `blow_up` callback (left press
on a bomb), `EventResult::Consumed` (flag toggle), or
`EventResult::Ignored` (everything else, including a completed reveal,
whose arm falls through to the final `Ignored`). -/
inductive EventOutcome where
  | blewUp : EventOutcome
  | consumed : EventOutcome
  | ignored : EventOutcome
deriving DecidableEq, Repr

/-- The game-state part of `View::on_event`: bounds guard
`r < size.0 && c < size.1`, then the `state != Revealed` guard, then left
press (bomb ⇒ `blow_up`, otherwise `reveal`) or right press (toggle
`Flagged`/`Hidden`). -/
def Grid.on_event (g : Grid) (fuel : Nat) (op : PlayerOp) :
    RunResult (Grid × EventOutcome) :=
  match op with
  | PlayerOp.leftPress idx =>
    if idx.1 < g.size.1 ∧ idx.2 < g.size.2 then
      match g.get? idx with
      | none => RunResult.panicked
      | some cell =>
        if cell.state ≠ CellState.Revealed then
          if cell.contents = CellContents.Bomb then
            RunResult.ok (g, EventOutcome.blewUp)
          else
            match g.reveal fuel idx with
            | RunResult.ok g1 => RunResult.ok (g1, EventOutcome.ignored)
            | RunResult.panicked => RunResult.panicked
            | RunResult.fuelOut => RunResult.fuelOut
        else RunResult.ok (g, EventOutcome.ignored)
    else RunResult.ok (g, EventOutcome.ignored)
  | PlayerOp.rightPress idx =>
    if idx.1 < g.size.1 ∧ idx.2 < g.size.2 then
      match g.get? idx with
      | none => RunResult.panicked
      | some cell =>
        if cell.state ≠ CellState.Revealed then
          if cell.state = CellState.Flagged then
            RunResult.ok (g.set idx { cell with state := CellState.Hidden },
              EventOutcome.consumed)
          else
            RunResult.ok (g.set idx { cell with state := CellState.Flagged },
              EventOutcome.consumed)
        else RunResult.ok (g, EventOutcome.ignored)
    else RunResult.ok (g, EventOutcome.ignored)

/-- The `From<&Difficulty> for Config` presets. -/
def difficultyConfig : String → Nat × Nat × Nat
  | "Beginner" => (9, 9, 10)
  | "Intermediate" => (16, 16, 40)
  | _ => (16, 30, 99)

/-! ### Specification-side definitions

These two definitions follow §4.1 of the specification's words (the
8-connected Moore neighbourhood restricted to bounds), for comparison
with the source's `Grid.neighbors`. -/

/-- All coordinates of an `rows × cols` board, row-major. -/
def allCoords (rows cols : Nat) : List (Nat × Nat) :=
  (List.range rows).flatMap fun r => (List.range cols).map fun c => (r, c)

/-- Spec §4.1: the in-bounds cells of the 8-connected Moore neighbourhood
of `q`, excluding `q` itself (Chebyshev distance exactly 1). -/
def mooreNeighborhood (rows cols : Nat) (q : Nat × Nat) : List (Nat × Nat) :=
  (allCoords rows cols).filter fun p =>
    decide (p ≠ q) && decide (p.1 ≤ q.1 + 1) && decide (q.1 ≤ p.1 + 1) &&
      decide (p.2 ≤ q.2 + 1) && decide (q.2 ≤ p.2 + 1)

/-- `true` iff the cell the grid's own indexing yields at `p` is a bomb. -/
def isBombAt (g : Grid) (p : Nat × Nat) : Bool :=
  match g.get? p with
  | some cell => decide (cell.contents = CellContents.Bomb)
  | none => false

/-- The true number of bomb-holding in-bounds Moore neighbours of `q`. -/
def bombNeighborCount (g : Grid) (q : Nat × Nat) : Nat :=
  (mooreNeighborhood g.size.1 g.size.2 q).countP fun p => isBombAt g p

/-- Spec §8 hint accuracy, as an executable check: every non-bomb cell's
hint equals its true bomb-neighbour count (and every coordinate is
readable). -/
def hintsAccurate (g : Grid) : Bool :=
  (allCoords g.size.1 g.size.2).all fun p =>
    match g.get? p with
    | some cell =>
      match cell.contents with
      | CellContents.Hint n => n == bombNeighborCount g p
      | CellContents.Bomb => true
    | none => false

/-- Number of cells whose contents is `Bomb`. -/
def countBombs (g : Grid) : Nat :=
  g.cells.countP fun cell => decide (cell.contents = CellContents.Bomb)

/-! ### Concrete boards and random streams used by the claims -/

/-- The all-zero 1×2 board with both cells marked `Revealed`: the state
the flood-fill loop cycles on. -/
def g12b : Grid :=
  ⟨(1,2), [⟨CellContents.Hint 0, CellState.Revealed⟩,
           ⟨CellContents.Hint 0, CellState.Revealed⟩]⟩

/-- A 1×1 board holding its single bomb. -/
def g11b : Grid := ⟨(1,1), [⟨CellContents.Bomb, CellState.Hidden⟩]⟩

/-- The random stream that always draws 0. -/
def rng0 : Nat → Nat := fun _ => 0

/-- A 3×3 board with bombs at (0,2) and (2,0) (flat layout row*3+col):
cell (0,0) is a one-cell `Hint(0)` region bordered by `Hint(n>0)` cells. -/
def gC2 : Grid :=
  ⟨(3,3), [⟨CellContents.Hint 0, CellState.Hidden⟩, ⟨CellContents.Hint 1, CellState.Hidden⟩,
           ⟨CellContents.Bomb, CellState.Hidden⟩, ⟨CellContents.Hint 1, CellState.Hidden⟩,
           ⟨CellContents.Hint 2, CellState.Hidden⟩, ⟨CellContents.Hint 1, CellState.Hidden⟩,
           ⟨CellContents.Bomb, CellState.Hidden⟩, ⟨CellContents.Hint 1, CellState.Hidden⟩,
           ⟨CellContents.Hint 0, CellState.Hidden⟩]⟩

/-- `gC2` after `reveal (0,0)`: only the target cell is revealed. -/
def gC2r : Grid :=
  ⟨(3,3), [⟨CellContents.Hint 0, CellState.Revealed⟩, ⟨CellContents.Hint 1, CellState.Hidden⟩,
           ⟨CellContents.Bomb, CellState.Hidden⟩, ⟨CellContents.Hint 1, CellState.Hidden⟩,
           ⟨CellContents.Hint 2, CellState.Hidden⟩, ⟨CellContents.Hint 1, CellState.Hidden⟩,
           ⟨CellContents.Bomb, CellState.Hidden⟩, ⟨CellContents.Hint 1, CellState.Hidden⟩,
           ⟨CellContents.Hint 0, CellState.Hidden⟩]⟩

/-- The random stream whose first two draws sample the coordinate (1,0)
on a 2×2 board. -/
def rngC4 : Nat → Nat := fun i => if i = 0 then 1 else 0

/-- What `place_bombs_rnd` produces from a fresh 2×2 board, one bomb,
first sample (1,0): cell (0,1) (flat index 1) keeps `Hint 0`. -/
def gC4 : Grid :=
  ⟨(2,2), [⟨CellContents.Hint 1, CellState.Hidden⟩, ⟨CellContents.Hint 0, CellState.Hidden⟩,
           ⟨CellContents.Bomb, CellState.Hidden⟩, ⟨CellContents.Hint 1, CellState.Hidden⟩]⟩

/-- What `place_bombs_rnd` produces from a fresh 2×2 board, one bomb,
first sample (0,0). -/
def gW : Grid :=
  ⟨(2,2), [⟨CellContents.Bomb, CellState.Hidden⟩, ⟨CellContents.Hint 1, CellState.Hidden⟩,
           ⟨CellContents.Hint 1, CellState.Hidden⟩, ⟨CellContents.Hint 1, CellState.Hidden⟩]⟩

/-- The random stream whose first two draws sample the coordinate (0,1)
on a 2×2 board. -/
def rngC10 : Nat → Nat := fun i => if i = 1 then 1 else 0

/-- A 1×1 board with its cell flagged. -/
def gFlag : Grid := ⟨(1,1), [⟨CellContents.Hint 0, CellState.Flagged⟩]⟩

/-- A 1×1 board with its cell revealed. -/
def gRev : Grid := ⟨(1,1), [⟨CellContents.Hint 0, CellState.Revealed⟩]⟩

/-! ### Helper lemmas -/

theorem revealLoop_g12b_cycles (fuel : Nat) :
    revealLoop fuel g12b [(0,1)] = RunResult.fuelOut ∧
      revealLoop fuel g12b [(0,0)] = RunResult.fuelOut := by
  induction fuel with
  | zero => exact ⟨rfl, rfl⟩
  | succ n ih =>
    refine ⟨?_, ?_⟩
    · show revealLoop n g12b [(0,0)] = RunResult.fuelOut
      exact ih.2
    · show revealLoop n g12b [(0,1)] = RunResult.fuelOut
      exact ih.1

theorem placeBombs_1x1_cycles : ∀ (fuel i : Nat),
    placeBombsLoop fuel rng0 i g11b 2 1 = RunResult.fuelOut := by
  intro fuel
  induction fuel with
  | zero => intro i; rfl
  | succ n ih =>
    intro i
    show placeBombsLoop n rng0 (i + 2) g11b 2 1 = RunResult.fuelOut
    exact ih (i + 2)

theorem countP_set_same {α : Type} (p : α → Bool) :
    ∀ (l : List α) (n : Nat) (a b : α), l[n]? = some a → p b = p a →
      (l.set n b).countP p = l.countP p
  | [], n, a, b, h, _ => by simp at h
  | x :: xs, 0, a, b, h, hp => by
    have hx : x = a := by simpa using h
    subst hx
    simp [List.countP_cons, hp]
  | x :: xs, n + 1, a, b, h, hp => by
    have hh : xs[n]? = some a := by simpa using h
    simp [List.countP_cons, countP_set_same p xs n a b hh hp]

theorem countP_set_incr {α : Type} (p : α → Bool) :
    ∀ (l : List α) (n : Nat) (a b : α), l[n]? = some a → p a = false → p b = true →
      (l.set n b).countP p = l.countP p + 1
  | [], n, a, b, h, _, _ => by simp at h
  | x :: xs, 0, a, b, h, hpa, hpb => by
    have hx : x = a := by simpa using h
    subst hx
    simp [List.countP_cons, hpa, hpb]
  | x :: xs, n + 1, a, b, h, hpa, hpb => by
    have hh : xs[n]? = some a := by simpa using h
    simp [List.countP_cons, countP_set_incr p xs n a b hh hpa hpb]
    omega

theorem map_set_same {α β : Type} (f : α → β) :
    ∀ (l : List α) (n : Nat) (a b : α), l[n]? = some a → f b = f a →
      (l.set n b).map f = l.map f
  | [], n, a, b, h, _ => by simp at h
  | x :: xs, 0, a, b, h, hf => by
    have hx : x = a := by simpa using h
    subst hx
    simp [hf]
  | x :: xs, n + 1, a, b, h, hf => by
    have hh : xs[n]? = some a := by simpa using h
    simp [map_set_same f xs n a b hh hf]

theorem bumpHints_frame :
    ∀ (ns : List (Nat × Nat)) (g g' : Grid), bumpHints g ns = some g' →
      countBombs g' = countBombs g ∧
        g'.cells.map Cell.state = g.cells.map Cell.state ∧ g'.size = g.size
  | [], g, g', h => by
    cases h
    exact ⟨rfl, rfl, rfl⟩
  | n :: ns, g, g', h => by
    rw [bumpHints] at h
    split at h
    · exact absurd h (by simp)
    · rename_i cell hget
      split at h
      · rename_i k hk
        obtain ⟨h1, h2, h3⟩ := bumpHints_frame ns _ g' h
        have hcells : g.cells[g.flat n]? = some cell := hget
        refine ⟨h1.trans ?_, h2.trans ?_, h3⟩
        · exact countP_set_same _ g.cells _ cell _ hcells (by simp [hk])
        · exact map_set_same Cell.state g.cells _ cell _ hcells rfl
      · exact bumpHints_frame ns g g' h

theorem placeBombsStep_placed (rng : Nat → Nat) (i : Nat) (g g1 : Grid)
    (h : placeBombsStep rng i g = some (g1, true)) :
    countBombs g1 = countBombs g + 1 ∧
      g1.cells.map Cell.state = g.cells.map Cell.state ∧ g1.size = g.size := by
  simp only [placeBombsStep] at h
  split at h
  · exact absurd h (by simp)
  · split at h
    · exact absurd h (by simp)
    · rename_i cell hget
      split at h
      · exact absurd h (by simp)
      · rename_i hnb
        split at h
        · exact absurd h (by simp)
        · rename_i g2 hbump
          obtain ⟨hb1, hb2, hb3⟩ := bumpHints_frame _ _ _ hbump
          have hg21 : g2 = g1 := by simpa using h
          subst hg21
          have hcells :
              g.cells[g.flat (rng i % g.size.1, rng (i + 1) % g.size.2)]? = some cell := hget
          refine ⟨hb1.trans ?_, hb2.trans ?_, hb3⟩
          · exact countP_set_incr _ g.cells _ cell _ hcells (by simp [hnb]) (by simp)
          · exact map_set_same Cell.state g.cells _ cell _ hcells rfl

theorem placeBombsStep_skip (rng : Nat → Nat) (i : Nat) (g g1 : Grid)
    (h : placeBombsStep rng i g = some (g1, false)) : g1 = g := by
  simp only [placeBombsStep] at h
  split at h
  · exact absurd h (by simp)
  · split at h
    · exact absurd h (by simp)
    · split at h
      · exact ((by simpa using h : g = g1)).symm
      · split at h
        · exact absurd h (by simp)
        · exact absurd h (by simp)

theorem placeBombsLoop_ok_count (numBombs : Nat) :
    ∀ (fuel : Nat) (rng : Nat → Nat) (i : Nat) (g : Grid) (placed : Nat) (g' : Grid),
      placed ≤ numBombs → countBombs g = placed →
      placeBombsLoop fuel rng i g numBombs placed = RunResult.ok g' →
      countBombs g' = numBombs := by
  intro fuel
  induction fuel with
  | zero =>
    intro rng i g placed g' _ _ h
    exact absurd h (by simp [placeBombsLoop])
  | succ n ih =>
    intro rng i g placed g' hle hcount h
    rw [placeBombsLoop] at h
    split at h
    · rename_i hlt
      split at h
      · exact absurd h (by simp)
      · rename_i g1 hstep
        have hc1 : countBombs g1 = countBombs g + 1 := (placeBombsStep_placed rng i g g1 hstep).1
        exact ih rng (i + 2) g1 (placed + 1) g' hlt (by omega) h
      · rename_i g1 hstep
        have hg1 : g1 = g := placeBombsStep_skip rng i g g1 hstep
        subst hg1
        exact ih rng (i + 2) g1 placed g' hle hcount h
    · rename_i hlt
      have hg : g = g' := by simpa using h
      subst hg
      omega

theorem placeBombsLoop_ok_states :
    ∀ (fuel : Nat) (rng : Nat → Nat) (i : Nat) (g : Grid) (numBombs placed : Nat) (g' : Grid),
      placeBombsLoop fuel rng i g numBombs placed = RunResult.ok g' →
      g'.cells.map Cell.state = g.cells.map Cell.state := by
  intro fuel
  induction fuel with
  | zero =>
    intro rng i g numBombs placed g' h
    exact absurd h (by simp [placeBombsLoop])
  | succ n ih =>
    intro rng i g numBombs placed g' h
    rw [placeBombsLoop] at h
    split at h
    · split at h
      · exact absurd h (by simp)
      · rename_i g1 hstep
        exact (ih rng (i + 2) g1 numBombs _ g' h).trans (placeBombsStep_placed rng i g g1 hstep).2.1
      · rename_i g1 hstep
        have hg1 : g1 = g := placeBombsStep_skip rng i g g1 hstep
        subst hg1
        exact ih rng (i + 2) g1 numBombs _ g' h
    · have hg : g = g' := by simpa using h
      subst hg
      rfl

/-! ### Per-cell transition analysis for player operations -/

/-- What a reveal pass can do to one cell slot: leave it alone, or keep
its contents and set its state to `Revealed`. -/
def cellRel (oc oc2 : Option Cell) : Prop :=
  oc2 = oc ∨ ∃ a b : Cell, oc = some a ∧ oc2 = some b ∧
    b.contents = a.contents ∧ b.state = CellState.Revealed

theorem cellRel_refl (oc : Option Cell) : cellRel oc oc := Or.inl rfl

theorem cellRel_trans {x y z : Option Cell} (h1 : cellRel x y) (h2 : cellRel y z) :
    cellRel x z := by
  rcases h1 with rfl | ⟨a, b, rfl, rfl, hc, hs⟩
  · exact h2
  · rcases h2 with rfl | ⟨b2, c, hb2, rfl, hc2, hs2⟩
    · exact Or.inr ⟨a, b, rfl, rfl, hc, hs⟩
    · cases Option.some.inj hb2
      exact Or.inr ⟨a, c, rfl, rfl, hc2.trans hc, hs2⟩

theorem cellRel_set (g : Grid) (idx : Nat × Nat) (cell newc : Cell)
    (h : g.get? idx = some cell) (hc : newc.contents = cell.contents)
    (hs : newc.state = CellState.Revealed) (n : Nat) :
    cellRel (g.cells[n]?) ((g.set idx newc).cells[n]?) := by
  have hcells : g.cells[g.flat idx]? = some cell := h
  by_cases he : g.flat idx = n
  · subst he
    have hlen : g.flat idx < g.cells.length := by
      by_contra hno
      rw [List.getElem?_eq_none (by omega)] at hcells
      exact absurd hcells (by simp)
    have hset : (g.set idx newc).cells[g.flat idx]? = some newc := by
      show (g.cells.set (g.flat idx) newc)[g.flat idx]? = some newc
      exact List.getElem?_set_self (by simpa using hlen)
    rw [hset, hcells]
    exact Or.inr ⟨cell, newc, rfl, rfl, hc, hs⟩
  · have hset : (g.set idx newc).cells[n]? = g.cells[n]? := by
      show (g.cells.set (g.flat idx) newc)[n]? = g.cells[n]?
      exact List.getElem?_set_ne he
    rw [hset]
    exact cellRel_refl _

theorem revealLoop_cellRel :
    ∀ (fuel : Nat) (g : Grid) (stack : List (Nat × Nat)) (g' : Grid),
      revealLoop fuel g stack = RunResult.ok g' →
      ∀ n : Nat, cellRel (g.cells[n]?) (g'.cells[n]?) := by
  intro fuel
  induction fuel with
  | zero =>
    intro g stack g' h
    exact absurd h (by simp [revealLoop])
  | succ m ih =>
    intro g stack g' h n
    cases stack with
    | nil =>
      have hg : g = g' := by
        have hok : RunResult.ok (α := Grid) g = RunResult.ok g' := h
        simpa using hok
      subst hg
      exact cellRel_refl _
    | cons current rest =>
      rw [revealLoop] at h
      split at h
      · exact absurd h (by simp)
      · rename_i cell hget
        split at h
        · rename_i hc0
          exact cellRel_trans
            (cellRel_set g current cell { cell with state := CellState.Revealed } hget rfl rfl n)
            (ih _ _ _ h n)
        · exact ih _ _ _ h n

theorem reveal_cellRel (g : Grid) (fuel : Nat) (idx : Nat × Nat) (g' : Grid)
    (h : g.reveal fuel idx = RunResult.ok g') (n : Nat) :
    cellRel (g.cells[n]?) (g'.cells[n]?) := by
  rw [Grid.reveal] at h
  split at h
  · exact absurd h (by simp)
  · rename_i cell hget
    split at h
    · exact cellRel_trans
        (cellRel_set g idx cell { cell with state := CellState.Revealed } hget rfl rfl n)
        (revealLoop_cellRel _ _ _ _ h n)
    · have hg : g.set idx { cell with state := CellState.Revealed } = g' := by simpa using h
      rw [← hg]
      exact cellRel_set g idx cell { cell with state := CellState.Revealed } hget rfl rfl n

/-- The amended per-cell transition set: the three transitions of the
claim plus `Flagged → Revealed` (a flagged non-bomb cell is revealed by
a left press, and a flagged zero-hint cell by the flood fill). -/
def allowedChange (s s2 : CellState) : Prop :=
  s2 = s ∨ (s = CellState.Hidden ∧ s2 = CellState.Revealed) ∨
    (s = CellState.Hidden ∧ s2 = CellState.Flagged) ∨
    (s = CellState.Flagged ∧ s2 = CellState.Hidden) ∨
    (s = CellState.Flagged ∧ s2 = CellState.Revealed)

/-- The transition set the claim states (no `Flagged → Revealed`). -/
def claimedChange (s s2 : CellState) : Prop :=
  s2 = s ∨ (s = CellState.Hidden ∧ s2 = CellState.Revealed) ∨
    (s = CellState.Hidden ∧ s2 = CellState.Flagged) ∨
    (s = CellState.Flagged ∧ s2 = CellState.Hidden)

theorem allowedChange_to_revealed (s : CellState) :
    allowedChange s CellState.Revealed := by
  cases s
  · exact Or.inr (Or.inl ⟨rfl, rfl⟩)
  · exact Or.inl rfl
  · exact Or.inr (Or.inr (Or.inr (Or.inr ⟨rfl, rfl⟩)))

theorem allowedChange_of_cellRel {oc oc2 : Option Cell} {cell cell2 : Cell}
    (h : cellRel oc oc2) (hc : oc = some cell) (hc2 : oc2 = some cell2) :
    allowedChange cell.state cell2.state := by
  subst hc hc2
  rcases h with h | ⟨a, b, ha, hb, _, hs⟩
  · cases Option.some.inj h
    exact Or.inl rfl
  · cases Option.some.inj ha
    cases Option.some.inj hb
    rw [hs]
    exact allowedChange_to_revealed _

theorem set_cases (g : Grid) (idx : Nat × Nat) (newc : Cell) (n : Nat)
    (cell cell2 : Cell) (hc : g.cells[n]? = some cell)
    (hc2 : (g.set idx newc).cells[n]? = some cell2) :
    cell2 = cell ∨ (n = g.flat idx ∧ cell2 = newc) := by
  by_cases he : g.flat idx = n
  · subst he
    by_cases hlen : g.flat idx < g.cells.length
    · have hset : (g.set idx newc).cells[g.flat idx]? = some newc := by
        show (g.cells.set (g.flat idx) newc)[g.flat idx]? = some newc
        exact List.getElem?_set_self (by simpa using hlen)
      rw [hset] at hc2
      exact Or.inr ⟨rfl, (Option.some.inj hc2).symm⟩
    · rw [List.getElem?_eq_none (by omega)] at hc
      exact absurd hc (by simp)
  · have hset : (g.set idx newc).cells[n]? = g.cells[n]? := by
      show (g.cells.set (g.flat idx) newc)[n]? = g.cells[n]?
      exact List.getElem?_set_ne he
    rw [hset, hc] at hc2
    exact Or.inl (Option.some.inj hc2).symm

/-- Injectivity of the source's flat-index mapping over the in-bounds
coordinates of an `rows × cols` grid. -/
def flatInjective (rows cols : Nat) : Prop :=
  ∀ p q : Nat × Nat, p.1 < rows → p.2 < cols → q.1 < rows → q.2 < cols →
    (Grid.new (rows, cols)).flat p = (Grid.new (rows, cols)).flat q → p = q

theorem flatInjective_iff : ∀ rows cols : Nat,
    flatInjective rows cols ↔ (cols ≤ rows ∨ rows ≤ 1) := by
  intro rows cols
  constructor
  · intro h
    by_contra hno
    push_neg at hno
    obtain ⟨h1, h2⟩ := hno
    have hco := h (0, rows) (1, 0) (by omega) (by omega) (by omega) (by omega)
      (by simp [Grid.flat, Grid.new])
    simp at hco
  · intro hor p q hp1 hp2 hq1 hq2 hpq
    obtain ⟨a, b⟩ := p
    obtain ⟨c, d⟩ := q
    simp only [Grid.flat, Grid.new] at hpq
    simp only at hp1 hp2 hq1 hq2
    simp only [Prod.mk.injEq]
    rcases hor with hcr | hr1
    · have hb : b < rows := by omega
      have hd : d < rows := by omega
      have hbd : b = d := by
        have hm1 : (a * rows + b) % rows = b := by
          rw [Nat.mul_comm a rows, Nat.mul_add_mod, Nat.mod_eq_of_lt hb]
        have hm2 : (c * rows + d) % rows = d := by
          rw [Nat.mul_comm c rows, Nat.mul_add_mod, Nat.mod_eq_of_lt hd]
        rw [← hm1, ← hm2, hpq]
      refine ⟨?_, hbd⟩
      have hrpos : 0 < rows := by omega
      have hac : a * rows = c * rows := by omega
      exact Nat.eq_of_mul_eq_mul_right hrpos hac
    · have ha : a = 0 := by omega
      have hcz : c = 0 := by omega
      subst ha
      subst hcz
      simpa using hpq

theorem flat_16_30_misses_270 : ∀ p : Nat × Nat, p.1 < 16 → p.2 < 30 →
    (Grid.new (16, 30)).flat p ≠ 270 := by
  intro p h1 h2
  obtain ⟨a, b⟩ := p
  show a * 16 + b ≠ 270
  simp only at h1 h2
  omega

theorem neighbors_br (g : Grid) (r c : Nat) (hr : r < g.size.1 - 1) (hc : c < g.size.2) :
    (r + 1, c + 1) ∈ g.neighbors (r, c) := by
  have hc1 : c < g.size.2 + 1 := Nat.lt_succ_of_lt hc
  simp [Grid.neighbors, hr, hc1]

/-! ### Claims -/

/-- C1: the flood fill performed by `reveal` on a `Hint(0)` cell does NOT
visit each coordinate at most once or terminate: on the all-zero 1×2
board, `reveal (0,0)` runs out of any amount of fuel — the loop cycles
forever between the two cells because the source never checks whether a
popped cell is already `Revealed`. -/
theorem reveal_allzero_1x2_never_terminates : ∀ fuel : Nat,
    (Grid.new (1, 2)).reveal fuel (0, 0) = RunResult.fuelOut := by
  intro fuel
  cases fuel with
  | zero => rfl
  | succ n =>
    show revealLoop n g12b [(0, 0)] = RunResult.fuelOut
    exact (revealLoop_g12b_cycles n).2

/-- C2: on the 3×3 board `gC2` (bombs at (0,2) and (2,0), accurate
hints), cell (0,0) is a one-cell `Hint(0)` region whose bordering cells
(0,1), (1,0), (1,1) carry `Hint(n>0)`; `reveal (0,0)` terminates but
reveals ONLY the target — the bordering non-zero cells stay `Hidden`,
contradicting the claim that they are revealed as the fill's boundary. -/
theorem reveal_keeps_boundary_hidden :
    hintsAccurate gC2 = true ∧
    gC2.get? (0, 0) = some ⟨CellContents.Hint 0, CellState.Hidden⟩ ∧
    (0, 1) ∈ mooreNeighborhood 3 3 (0, 0) ∧
    gC2.reveal 9 (0, 0) = RunResult.ok gC2r ∧
    gC2r.get? (0, 0) = some ⟨CellContents.Hint 0, CellState.Revealed⟩ ∧
    gC2r.get? (0, 1) = some ⟨CellContents.Hint 1, CellState.Hidden⟩ ∧
    gC2r.get? (1, 0) = some ⟨CellContents.Hint 1, CellState.Hidden⟩ ∧
    gC2r.get? (1, 1) = some ⟨CellContents.Hint 2, CellState.Hidden⟩ := by
  decide

/-- C3: `neighbors` is wrong at the corner (0,1) of a 2×2 grid: it
returns 4 entries (a corner must have exactly 3) including the
out-of-bounds coordinate (1,2), and so differs from the in-bounds Moore
neighbourhood of the spec. -/
theorem neighbors_corner_wrong :
    (Grid.new (2, 2)).neighbors (0, 1) = [(0, 0), (1, 1), (1, 0), (1, 2)] ∧
    mooreNeighborhood 2 2 (0, 1) = [(0, 0), (1, 0), (1, 1)] ∧
    ((Grid.new (2, 2)).neighbors (0, 1)).length = 4 ∧
    (mooreNeighborhood 2 2 (0, 1)).length = 3 ∧
    (1, 2) ∈ (Grid.new (2, 2)).neighbors (0, 1) ∧
    (1, 2) ∉ mooreNeighborhood 2 2 (0, 1) := by
  decide

/-- C4: after a completed generation (2×2 board, one bomb sampled at
(1,0)), cell (0,1) holds `Hint 0` although it has exactly one bomb among
its in-bounds Moore neighbours — `neighbors (1,0)` omits (0,1) because
the guard for `(r-1, c+1)` tests the row bound instead of the column
bound, so that cell's hint is never incremented. -/
theorem hint_wrong_after_generation :
    place_bombs_rnd 2 rngC4 (Grid.new (2, 2)) 1 = RunResult.ok gC4 ∧
    gC4.get? (1, 0) = some ⟨CellContents.Bomb, CellState.Hidden⟩ ∧
    gC4.get? (0, 1) = some ⟨CellContents.Hint 0, CellState.Hidden⟩ ∧
    bombNeighborCount gC4 (0, 1) = 1 ∧
    (0, 1) ∉ (Grid.new (2, 2)).neighbors (1, 0) ∧
    (0, 1) ∈ mooreNeighborhood 2 2 (1, 0) ∧
    hintsAccurate gC4 = false := by
  decide

/-- C5: whenever `place_bombs_rnd` runs to completion on a grid that
starts with no bombs, requesting `k < rows × cols` bombs, exactly `k`
cells hold `Bomb` contents afterwards, for every random source: each
successful iteration turns exactly one non-bomb cell into a bomb, and
hint updates never create or destroy bombs. -/
theorem place_bombs_rnd_bomb_count (fuel : Nat) (rng : Nat → Nat) (g : Grid) (k : Nat)
    (g' : Grid) (hfresh : countBombs g = 0) (_hk : k < g.size.1 * g.size.2)
    (hrun : place_bombs_rnd fuel rng g k = RunResult.ok g') :
    countBombs g' = k :=
  placeBombsLoop_ok_count k fuel rng 0 g 0 g' (Nat.zero_le k) hfresh hrun

/-- C5 witness: a concrete completed generation (fresh 2×2 board, one
bomb, stream drawing (0,0)) ends with exactly one bomb. -/
theorem place_bombs_rnd_bomb_count_witness : countBombs gW = 1 :=
  place_bombs_rnd_bomb_count 3 rng0 (Grid.new (2, 2)) 1 gW (by decide) (by decide)
    (by decide)

/-- C6 (amended): under any completed player operation (left-press
reveal attempt or right-press flag toggle), every cell's state either
stays put or moves by one of Hidden→Revealed, Hidden→Flagged,
Flagged→Hidden, or Flagged→Revealed; in particular a `Revealed` cell
never changes again. The transition Flagged→Revealed — absent from the
claim — really occurs (see the counterexample). -/
theorem on_event_transitions (g : Grid) (fuel : Nat) (op : PlayerOp) (g' : Grid)
    (out : EventOutcome) (hrun : g.on_event fuel op = RunResult.ok (g', out))
    (n : Nat) (cell cell2 : Cell) (hc : g.cells[n]? = some cell)
    (hc2 : g'.cells[n]? = some cell2) :
    allowedChange cell.state cell2.state := by
  cases op with
  | leftPress idx =>
    rw [Grid.on_event] at hrun
    split at hrun
    · split at hrun
      · exact absurd hrun (by simp)
      · rename_i cell0 hget
        split at hrun
        · split at hrun
          · obtain ⟨rfl, -⟩ : g = g' ∧ EventOutcome.blewUp = out := by simpa using hrun
            rw [hc] at hc2
            cases Option.some.inj hc2
            exact Or.inl rfl
          · split at hrun
            · rename_i g1 hrev
              obtain ⟨h1, -⟩ : g1 = g' ∧ EventOutcome.ignored = out := by simpa using hrun
              subst h1
              exact allowedChange_of_cellRel (reveal_cellRel g fuel idx _ hrev n) hc hc2
            · exact absurd hrun (by simp)
            · exact absurd hrun (by simp)
        · obtain ⟨rfl, -⟩ : g = g' ∧ EventOutcome.ignored = out := by simpa using hrun
          rw [hc] at hc2
          cases Option.some.inj hc2
          exact Or.inl rfl
    · obtain ⟨rfl, -⟩ : g = g' ∧ EventOutcome.ignored = out := by simpa using hrun
      rw [hc] at hc2
      cases Option.some.inj hc2
      exact Or.inl rfl
  | rightPress idx =>
    rw [Grid.on_event] at hrun
    split at hrun
    · split at hrun
      · exact absurd hrun (by simp)
      · rename_i cell0 hget
        split at hrun
        · rename_i hnr
          split at hrun
          · rename_i hflag
            obtain ⟨hg, -⟩ :
                g.set idx { cell0 with state := CellState.Hidden } = g' ∧
                  EventOutcome.consumed = out := by simpa using hrun
            subst hg
            rcases set_cases g idx _ n cell cell2 hc hc2 with rfl | ⟨hn, rfl⟩
            · exact Or.inl rfl
            · have hget2 : g.cells[g.flat idx]? = some cell0 := hget
              rw [hn, hget2] at hc
              have hcc : cell = cell0 := (Option.some.inj hc).symm
              exact Or.inr (Or.inr (Or.inr (Or.inl ⟨by rw [hcc]; exact hflag, rfl⟩)))
          · rename_i hflag
            obtain ⟨hg, -⟩ :
                g.set idx { cell0 with state := CellState.Flagged } = g' ∧
                  EventOutcome.consumed = out := by simpa using hrun
            subst hg
            rcases set_cases g idx _ n cell cell2 hc hc2 with rfl | ⟨hn, rfl⟩
            · exact Or.inl rfl
            · have hget2 : g.cells[g.flat idx]? = some cell0 := hget
              rw [hn, hget2] at hc
              have hcc : cell = cell0 := (Option.some.inj hc).symm
              have hhid : cell0.state = CellState.Hidden := by
                cases h0 : cell0.state
                · rfl
                · exact absurd h0 hnr
                · exact absurd h0 hflag
              exact Or.inr (Or.inr (Or.inl ⟨by rw [hcc]; exact hhid, rfl⟩))
        · obtain ⟨rfl, -⟩ : g = g' ∧ EventOutcome.ignored = out := by simpa using hrun
          rw [hc] at hc2
          cases Option.some.inj hc2
          exact Or.inl rfl
    · obtain ⟨rfl, -⟩ : g = g' ∧ EventOutcome.ignored = out := by simpa using hrun
      rw [hc] at hc2
      cases Option.some.inj hc2
      exact Or.inl rfl

/-- C6 witness: a concrete completed flag toggle on a fresh 1×1 board
moves its cell Hidden→Flagged, an allowed transition. -/
theorem on_event_transitions_witness :
    allowedChange CellState.Hidden CellState.Flagged :=
  on_event_transitions (Grid.new (1, 1)) 5 (PlayerOp.rightPress (0, 0)) gFlag
    EventOutcome.consumed (by decide) 0 ⟨CellContents.Hint 0, CellState.Hidden⟩
    ⟨CellContents.Hint 0, CellState.Flagged⟩ (by decide) (by decide)

/-- C6 counterexample: on a 1×1 board, flag the cell with a right press,
then left-press it: the cell moves Flagged→Revealed, a transition the
claim's list (Hidden→Revealed, Hidden→Flagged, Flagged→Hidden) does not
contain. -/
theorem flagged_cell_revealed_counterexample :
    (Grid.new (1, 1)).on_event 5 (PlayerOp.rightPress (0, 0)) =
      RunResult.ok (gFlag, EventOutcome.consumed) ∧
    gFlag.on_event 5 (PlayerOp.leftPress (0, 0)) =
      RunResult.ok (gRev, EventOutcome.ignored) ∧
    gFlag.cells[0]? = some ⟨CellContents.Hint 0, CellState.Flagged⟩ ∧
    gRev.cells[0]? = some ⟨CellContents.Hint 0, CellState.Revealed⟩ ∧
    ¬ claimedChange CellState.Flagged CellState.Revealed := by
  unfold claimedChange
  decide

/-- C7: nothing rejects an invalid configuration: `Grid::new` happily
builds zero-row and zero-column grids (no error path exists in the
source), and `place_bombs_rnd` with `bomb_count = 2` on a 1×1 grid
(so `bomb_count ≥ rows × cols`) never returns — after the single cell
becomes a bomb every further sample collides and is resampled forever
rather than failing with an explicit error. -/
theorem construction_never_validated :
    Grid.new (0, 5) = { size := (0, 5), cells := [] } ∧
    Grid.new (3, 0) = { size := (3, 0), cells := [] } ∧
    (∀ fuel : Nat, place_bombs_rnd fuel rng0 (Grid.new (1, 1)) 2 = RunResult.fuelOut) := by
  refine ⟨rfl, rfl, ?_⟩
  intro fuel
  cases fuel with
  | zero => rfl
  | succ n =>
    show placeBombsLoop n rng0 2 g11b 2 1 = RunResult.fuelOut
    exact placeBombs_1x1_cycles n 2

/-- C8: whenever `place_bombs_rnd` runs to completion it leaves every
cell's visibility state unchanged — it writes only the `contents` field
(bomb placement and hint increments), never `state`. -/
theorem place_bombs_rnd_preserves_states (fuel : Nat) (rng : Nat → Nat) (g : Grid)
    (k : Nat) (g' : Grid) (hrun : place_bombs_rnd fuel rng g k = RunResult.ok g') :
    g'.cells.map Cell.state = g.cells.map Cell.state :=
  placeBombsLoop_ok_states fuel rng 0 g k 0 g' hrun

/-- C8 witness: the concrete completed generation of `gW` keeps all four
cells `Hidden`. -/
theorem place_bombs_rnd_preserves_states_witness :
    gW.cells.map Cell.state = (Grid.new (2, 2)).cells.map Cell.state :=
  place_bombs_rnd_preserves_states 3 rng0 (Grid.new (2, 2)) 1 gW (by decide)

set_option maxRecDepth 4000 in
/-- C9 (amended): the flat-index mapping is `row * rows + column` (the
stride is the ROW count); it is injective over in-bounds coordinates iff
`cols ≤ rows` or `rows ≤ 1` (not exactly when `rows = cols`); for the
Expert preset (16×30) the distinct in-bounds coordinates (0,16) and
(1,0) both map to flat index 16, and the allocated cell at flat index
270 (of 480) is reachable from no in-bounds coordinate. -/
theorem flat_index_amended :
    (∀ (g : Grid) (p : Nat × Nat), g.flat p = p.1 * g.size.1 + p.2) ∧
    (∀ rows cols : Nat, flatInjective rows cols ↔ (cols ≤ rows ∨ rows ≤ 1)) ∧
    difficultyConfig "Expert" = (16, 30, 99) ∧
    (Grid.new (16, 30)).flat (0, 16) = 16 ∧
    (Grid.new (16, 30)).flat (1, 0) = 16 ∧
    ((0, 16) : Nat × Nat) ≠ (1, 0) ∧
    (0 < 16 ∧ 16 < 30 ∧ 1 < 16 ∧ 0 < 30) ∧
    (Grid.new (16, 30)).cells.length = 480 ∧
    (∀ p : Nat × Nat, p.1 < 16 → p.2 < 30 → (Grid.new (16, 30)).flat p ≠ 270) :=
  ⟨fun _ _ => rfl, flatInjective_iff, by decide, by decide, by decide, by decide,
    by decide, by decide, flat_16_30_misses_270⟩

/-- C9 counterexample: on a 2×1 grid (rows ≠ cols) the mapping IS
injective over in-bounds coordinates, refuting "injective only when
rows = cols". -/
theorem flat_injective_nonsquare_counterexample :
    flatInjective 2 1 ∧ (2 : Nat) ≠ 1 := by
  constructor
  · intro p q hp1 hp2 hq1 hq2 hpq
    obtain ⟨a, b⟩ := p
    obtain ⟨c, d⟩ := q
    simp only [Grid.flat, Grid.new] at hpq
    simp only at hp1 hp2 hq1 hq2
    simp only [Prod.mk.injEq]
    omega
  · decide

/-- C10: `neighbors` emits the out-of-bounds coordinate `(r+1, c+1)` for
every in-bounds cell with `r < rows - 1` (even at `c = cols - 1`), and
indexing the grid there reaches the out-of-range branch of cell access
from in-bounds operations: on the 2×2 grid the neighbour (1,2) of (0,1)
has flat index 4, past the 4-element backing vector, so both the flood
fill of `reveal (0,1)` and a bomb placement sampling (0,1) panic. -/
theorem neighbors_out_of_bounds_reachable :
    (∀ (g : Grid) (r c : Nat), r < g.size.1 - 1 → c < g.size.2 →
      (r + 1, c + 1) ∈ g.neighbors (r, c)) ∧
    (1, 2) ∈ (Grid.new (2, 2)).neighbors (0, 1) ∧
    ¬ ((1, 2) : Nat × Nat).2 < 2 ∧
    (Grid.new (2, 2)).flat (1, 2) = 4 ∧
    (Grid.new (2, 2)).cells.length = 4 ∧
    (Grid.new (2, 2)).get? (1, 2) = none ∧
    (Grid.new (2, 2)).reveal 5 (0, 1) = RunResult.panicked ∧
    place_bombs_rnd 5 rngC10 (Grid.new (2, 2)) 1 = RunResult.panicked :=
  ⟨neighbors_br, by decide, by decide, by decide, by decide, by decide, by decide,
    by decide⟩
